import Mathlib

/-!
Verification of the HAMPOD inter-process transport core against its design
specification.  The definitions below are shallow embeddings of the C source:

* `Comm`      — Software2/src/comm.c (response queues, router consumer waits,
                the packet decoder `comm_read_packet`)
* `HalAudio`  — Firmware/hal/hal_audio_usb.c (playback state, chunked play
                loop, interrupt / clear-interrupt / beep)
* `AudioFw`   — Firmware/audio_firmware.c (I/O-role bypass classification and
                the worker dispatch loop)
* `KeypadFw`  — Firmware/keypad_firmware.c (keypad worker)
* `KeypadSw`  — Software2/src/keypad.c (tap/hold key-event classifier)
* `HalKeypad` — Firmware/hal/hal_keypad_usb.c (phone-layout 0/00 double-pulse
                disambiguation)

Machine integers are modelled as `Nat` with explicit bounds where the code
relies on them; byte values are `Nat` in `[0,256)`; C `int` status codes are
`Int`.  Blocking calls are modelled by making the environment (what happened
while the call was blocked) an explicit argument.
-/

namespace Hampod

/-! ### Packet model

Mirrors `hampod_firm_packet.h` as re-declared in `Software2/include/comm.h`:
a packet is a 4-byte type ordinal, a 2-byte length, a 2-byte tag and
`data_len` payload bytes.  The type is kept as the raw wire ordinal. -/

def PACKET_KEYPAD : Nat := 0
def PACKET_AUDIO_ORD : Nat := 1
def PACKET_SERIAL : Nat := 2
def PACKET_CONFIG : Nat := 3

/-- `CommPacket` from comm.h (payload bytes as a list, length as a field). -/
structure CommPacket where
  ptype : Nat
  data_len : Nat
  tag : Nat
  data : List Nat
deriving DecidableEq, Repr

instance : Inhabited CommPacket := ⟨⟨0, 0, 0, []⟩⟩

namespace Comm

/-! ### Response queues (comm.c lines 42-140)

A `ResponseQueue` is a circular buffer of `COMM_RESPONSE_QUEUE_SIZE` slots
with `head` (index of first item), `tail` (index of next empty slot) and
`count`.  The mutex and condition variable of the C struct are concurrency
plumbing; the wait they implement is modelled explicitly in
`response_queue_pop_timeout` below. -/

def COMM_RESPONSE_QUEUE_SIZE : Nat := 16

def HAMPOD_OK : Int := 0
def HAMPOD_ERROR : Int := -1
def HAMPOD_TIMEOUT : Int := -2
def HAMPOD_NOT_FOUND : Int := -3

structure ResponseQueue where
  packets : List CommPacket
  head : Nat
  tail : Nat
  count : Nat
deriving DecidableEq, Repr

/-- `response_queue_init`: all slots default, indices and count zero. -/
def response_queue_init : ResponseQueue :=
  ⟨List.replicate COMM_RESPONSE_QUEUE_SIZE default, 0, 0, 0⟩

/-- `response_queue_push` (comm.c lines 77-97).  If the queue is full the
oldest packet is dropped by advancing `head`; then the new packet is written
at `tail`.  The C function never waits and always returns `HAMPOD_OK`. -/
def response_queue_push (q : ResponseQueue) (p : CommPacket) :
    ResponseQueue × Int :=
  let q1 :=
    if COMM_RESPONSE_QUEUE_SIZE ≤ q.count then
      { q with head := (q.head + 1) % COMM_RESPONSE_QUEUE_SIZE,
               count := q.count - 1 }
    else q
  ({ q1 with packets := q1.packets.set q1.tail p,
             tail := (q1.tail + 1) % COMM_RESPONSE_QUEUE_SIZE,
             count := q1.count + 1 },
   HAMPOD_OK)

/-- The head-removal step of `response_queue_pop_timeout` (comm.c 133-137). -/
def response_queue_pop (q : ResponseQueue) : CommPacket × ResponseQueue :=
  (q.packets.getD q.head default,
   { q with head := (q.head + 1) % COMM_RESPONSE_QUEUE_SIZE,
            count := q.count - 1 })

/-- What happened while the consumer was blocked inside
`pthread_cond_timedwait`: a packet was pushed, the router stopped (its
shutdown broadcast wakes the waiter), or the timeout expired. -/
inductive WaitEvent
  | arrival (p : CommPacket)
  | routerStopped
  | timedOut
deriving DecidableEq, Repr

structure PopOutcome where
  status : Int
  packet : Option CommPacket
  queue : ResponseQueue
deriving DecidableEq, Repr

/-- The code after the wait loop of `response_queue_pop_timeout`
(comm.c lines 123-139). -/
def pop_timeout_after_wait (q : ResponseQueue) (router_running : Bool) :
    PopOutcome :=
  if router_running = false ∧ q.count = 0 then ⟨HAMPOD_ERROR, none, q⟩
  else if q.count = 0 then ⟨HAMPOD_NOT_FOUND, none, q⟩
  else
    let r := response_queue_pop q
    ⟨HAMPOD_OK, some r.1, r.2⟩

/-- `response_queue_pop_timeout` (comm.c lines 99-140).  The
`while (count == 0 && router_running)` wait is entered only when the queue is
empty and the router runs; the `WaitEvent` argument says how that wait ended
(`ETIMEDOUT` returns `HAMPOD_TIMEOUT` from inside the loop, the other two
wake-ups fall through to the post-loop checks). -/
def response_queue_pop_timeout (q : ResponseQueue) (router_running : Bool)
    (ev : WaitEvent) : PopOutcome :=
  if q.count = 0 ∧ router_running = true then
    match ev with
    | .timedOut => ⟨HAMPOD_TIMEOUT, none, q⟩
    | .arrival p => pop_timeout_after_wait (response_queue_push q p).1 router_running
    | .routerStopped => pop_timeout_after_wait q false
  else
    pop_timeout_after_wait q router_running

/-- The live contents of a queue, oldest first. -/
def queue_contents (q : ResponseQueue) : List CommPacket :=
  (List.range q.count).map
    (fun i => q.packets.getD ((q.head + i) % COMM_RESPONSE_QUEUE_SIZE) default)

/-- Structural well-formedness of a response queue. -/
def QueueInv (q : ResponseQueue) : Prop :=
  q.packets.length = COMM_RESPONSE_QUEUE_SIZE ∧
  q.head < COMM_RESPONSE_QUEUE_SIZE ∧
  q.tail < COMM_RESPONSE_QUEUE_SIZE ∧
  q.count ≤ COMM_RESPONSE_QUEUE_SIZE ∧
  q.tail = (q.head + q.count) % COMM_RESPONSE_QUEUE_SIZE

instance (q : ResponseQueue) : Decidable (QueueInv q) := by
  unfold QueueInv
  infer_instance

/-- Abstract effect of one push on the queue contents. -/
def absPush (l : List CommPacket) (p : CommPacket) : List CommPacket :=
  (if l.length = COMM_RESPONSE_QUEUE_SIZE then l.drop 1 else l) ++ [p]

def push_all (q : ResponseQueue) (xs : List CommPacket) : ResponseQueue :=
  xs.foldl (fun q p => (response_queue_push q p).1) q

/-- A state transition of the response-queue module: a router push or a
consumer `pop_timeout` (with the environment of its wait). -/
inductive QueueOp
  | push (p : CommPacket)
  | popT (router_running : Bool) (ev : WaitEvent)

def apply_queue_op (q : ResponseQueue) (op : QueueOp) : ResponseQueue :=
  match op with
  | .push p => (response_queue_push q p).1
  | .popT r ev => (response_queue_pop_timeout q r ev).queue

/-! ### Software-side packet decoder (comm.c lines 360-413) -/

/-- `COMM_MAX_DATA_LEN` from comm.h. -/
def COMM_MAX_DATA_LEN : Nat := 256

/-- Little-endian value of a byte list. -/
def bytesToNatLE : List Nat → Nat
  | [] => 0
  | b :: rest => b + 256 * bytesToNatLE rest

/-- `comm_read_packet` (comm.c lines 360-413) as a pure decoder over the
byte stream of the inbound pipe.  The C code issues one `read` per header
field (4-byte type, 2-byte length, 2-byte tag) and treats any short read as
`HAMPOD_ERROR`; if `data_len > COMM_MAX_DATA_LEN` it returns `HAMPOD_ERROR`
before any payload byte is read.  `none` is the `HAMPOD_ERROR` outcome;
`some` carries the packet and the unconsumed stream. -/
def comm_read_packet (stream : List Nat) : Option (CommPacket × List Nat) :=
  if 4 ≤ stream.length then
    let ptype := bytesToNatLE (stream.take 4)
    let s1 := stream.drop 4
    if 2 ≤ s1.length then
      let len := bytesToNatLE (s1.take 2)
      let s2 := s1.drop 2
      if 2 ≤ s2.length then
        let tag := bytesToNatLE (s2.take 2)
        let s3 := s2.drop 2
        if 0 < len then
          if COMM_MAX_DATA_LEN < len then none
          else if len ≤ s3.length then
            some (⟨ptype, len, tag, s3.take len⟩, s3.drop len)
          else none
        else some (⟨ptype, 0, tag, []⟩, s3)
      else none
    else none
  else none

end Comm

namespace HalAudio

/-! ### Audio HAL (hal_audio_usb.c)

The file-scope playback state of hal_audio_usb.c: `initialized`,
`pcm_handle` (modelled as the boolean `pcm_open`), the volatile flags
`audio_interrupted` and `audio_playing`, and the loaded-beep caches.  The
counters record the calls made on the ALSA sink: `snd_pcm_drop` (hardware
abort), `snd_pcm_prepare` (re-prime) and `snd_pcm_drain`. -/

inductive BeepType
  | keypress
  | hold
  | error
deriving DecidableEq, Repr

structure HalState where
  inited : Bool
  pcm_open : Bool
  audio_interrupted : Bool
  audio_playing : Bool
  dropCalls : Nat
  prepareCalls : Nat
  drainCalls : Nat
  beep_keypress_loaded : Bool
  beep_hold_loaded : Bool
  beep_error_loaded : Bool
deriving DecidableEq, Repr

/-- `hal_audio_interrupt` (hal_audio_usb.c lines 587-594): set the
interrupted flag and, if the PCM handle is open, drop (hardware-abort) the
buffered audio. -/
def hal_audio_interrupt (s : HalState) : HalState :=
  let s1 := { s with audio_interrupted := true }
  if s1.pcm_open then { s1 with dropCalls := s1.dropCalls + 1 } else s1

/-- `hal_audio_clear_interrupt` (hal_audio_usb.c lines 603-611): call
`snd_pcm_prepare` (re-prime the sink) only if `audio_interrupted` is set and
the PCM handle is open, then clear the flag. -/
def hal_audio_clear_interrupt (s : HalState) : HalState :=
  let s1 :=
    if s.audio_interrupted && s.pcm_open then
      { s with prepareCalls := s.prepareCalls + 1 }
    else s
  { s1 with audio_interrupted := false }

/-- `hal_audio_play_beep` (hal_audio_usb.c lines 648-707).  `write_ok` is
the environment of the sink write: whether `snd_pcm_writei` succeeded or was
recovered by `snd_pcm_recover`.  On success the code drains and then
re-prepares the sink before returning. -/
def hal_audio_play_beep (t : BeepType) (write_ok : Bool) (s : HalState) :
    HalState × Int :=
  let loaded :=
    match t with
    | .keypress => s.beep_keypress_loaded
    | .hold => s.beep_hold_loaded
    | .error => s.beep_error_loaded
  if !loaded then (s, -1)
  else if !(s.inited && s.pcm_open) then (s, -1)
  else if !write_ok then (s, -1)
  else
    ({ s with drainCalls := s.drainCalls + 1,
              prepareCalls := s.prepareCalls + 1 }, 0)

/-- `hal_audio_get_card_number` (hal_audio_usb.c lines 713-718); the card
number of the enumerated device comes from the environment. -/
def hal_audio_get_card_number (s : HalState) (card : Int) : Int :=
  if !s.inited then -1 else card

/-- Abstraction of the WAV file argument of `hal_audio_play_file`:
open/header/RIFF failure, a format mismatch (wrong rate, channel count or
bit depth — falls back to `system("aplay ...")`), or a valid 16 kHz mono
16-bit file holding `chunks` chunk-loop iterations of data. -/
inductive WavInput
  | noFile
  | badFormat
  | valid (chunks : Nat)
deriving DecidableEq, Repr

/-- The chunked streaming loop of `hal_audio_play_file` (hal_audio_usb.c
lines 531-553).  Iteration `i` first evaluates the loop condition, reading
the concurrently-set `audio_interrupted` flag — `intr i` is its value at
that check; `werr i = true` means `snd_pcm_writei` failed on chunk `i` and
`snd_pcm_recover` also failed (break).  The result lists the indices of the
chunks actually written to the sink. -/
def stream_chunks (intr werr : Nat → Bool) : Nat → Nat → List Nat
  | _, 0 => []
  | i, n + 1 =>
    if intr i then []
    else if werr i then []
    else i :: stream_chunks intr werr (i + 1) n

structure PlayResult where
  state : HalState
  ret : Int
  writes : List Nat
deriving DecidableEq, Repr

/-- `hal_audio_play_file` (hal_audio_usb.c lines 439-579).  The streaming
path sets `audio_playing = 1` and `audio_interrupted = 0`, runs the chunk
loop, then on every exit of the loop (source exhausted, interrupted flag
seen, or unrecoverable write error) sets `audio_playing = 0`,
`audio_interrupted = 0` and returns 0.  The fallback `system("aplay ...")`
path brackets the call with `audio_playing` and returns -1 only if the
command fails. -/
def hal_audio_play_file (inp : WavInput) (intr werr : Nat → Bool)
    (sys_ok : Bool) (s : HalState) : PlayResult :=
  if !s.inited then ⟨s, -1, []⟩
  else
    match inp with
    | .noFile => ⟨s, -1, []⟩
    | .badFormat =>
        ⟨{ s with audio_playing := false }, if sys_ok then 0 else -1, []⟩
    | .valid n =>
        if !s.pcm_open then
          ⟨{ s with audio_playing := false }, if sys_ok then 0 else -1, []⟩
        else
          ⟨{ s with audio_playing := false, audio_interrupted := false },
            0, stream_chunks intr werr 0 n⟩

/-- A concrete healthy HAL state: initialized, PCM open, idle, beeps
cached. -/
def hal_state_demo : HalState :=
  ⟨true, true, false, false, 0, 0, 0, true, true, true⟩

end HalAudio

namespace AudioFw

/-! ### Audio firmware (audio_firmware.c) -/

/-- `Inst_packet` of hampod_firm_packet.h carries the same four fields as
the software-side `CommPacket`. -/
abbrev InstPacket := CommPacket

/-- Modelled from the spec: `create_inst_packet` (its implementation,
hampod_queue.c, is not under src/) builds a packet from a kind ordinal, a
payload length, the payload bytes and a tag. -/
def create_inst_packet (t : Nat) (len : Nat) (data : List Nat) (tag : Nat) :
    InstPacket :=
  ⟨t, len, tag, data⟩

/-- Modelled from the spec: the PendingRequestQueue (hampod_queue.c, not
under src/) is a FIFO of packets; `enqueue` appends at the back. -/
def enqueue (q : List InstPacket) (p : InstPacket) : List InstPacket :=
  q ++ [p]

/-- Modelled from the spec: `clear_queue` (hampod_queue.c, not under src/)
discards every pending packet, leaving the queue empty. -/
def clear_queue (_q : List InstPacket) : List InstPacket := []

/-- Little-endian bytes of a C `int` (the `sizeof(int)` = 4 response
payload). -/
def int_bytes (v : Int) : List Nat :=
  let u : Nat := (v % (2 ^ 32)).toNat
  [u % 256, u / 256 % 256, u / 65536 % 256, u / 16777216 % 256]

/-- `hal_tts_interrupt` (hal_tts_piper.c lines 344-349): sets the TTS
interrupt flag and also interrupts the audio HAL. -/
def hal_tts_interrupt (hal : HalAudio.HalState) (_tts : Bool) :
    HalAudio.HalState × Bool :=
  (HalAudio.hal_audio_interrupt hal, true)

/-- State shared by the two roles of the audio firmware: the pending request
queue, the audio HAL state, the TTS interrupt flag, and the packets written
to the output pipe so far. -/
structure AudioFwState where
  queue : List InstPacket
  hal : HalAudio.HalState
  tts_interrupted : Bool
  out : List InstPacket
deriving DecidableEq, Repr

/-- One iteration of the I/O role `audio_io_thread` (audio_firmware.c lines
197-332) applied to a decoded inbound packet.  Non-AUDIO packets are
skipped; a first payload byte 105 (ASCII i) takes the interrupt bypass:
`hal_audio_interrupt`, `hal_tts_interrupt`, `clear_queue`, then an
acknowledgment written directly to the output pipe with the packet tag; a
first payload byte 98 (ASCII b) takes the beep bypass:
`hal_audio_clear_interrupt`, `hal_audio_play_beep` on the type given by the
second byte (107 k / 104 h / 101 e), then a direct acknowledgment; any other
packet is enqueued for the worker. -/
def audio_io_step (pkt : InstPacket) (write_ok : Bool) (st : AudioFwState) :
    AudioFwState :=
  if pkt.ptype ≠ PACKET_AUDIO_ORD then st
  else if 0 < pkt.data_len ∧ pkt.data.getD 0 0 = 105 then
    let hal1 := HalAudio.hal_audio_interrupt st.hal
    let r := hal_tts_interrupt hal1 st.tts_interrupted
    { st with
        hal := r.1,
        tts_interrupted := r.2,
        queue := clear_queue st.queue,
        out := st.out ++
          [create_inst_packet PACKET_AUDIO_ORD 4 (int_bytes 0) pkt.tag] }
  else if 0 < pkt.data_len ∧ pkt.data.getD 0 0 = 98 then
    let hal1 := HalAudio.hal_audio_clear_interrupt st.hal
    let bt : HalAudio.BeepType :=
      if 1 < pkt.data_len then
        if pkt.data.getD 1 0 = 107 then .keypress
        else if pkt.data.getD 1 0 = 104 then .hold
        else if pkt.data.getD 1 0 = 101 then .error
        else .keypress
      else .keypress
    let r := HalAudio.hal_audio_play_beep bt write_ok hal1
    { st with
        hal := r.1,
        out := st.out ++
          [create_inst_packet PACKET_AUDIO_ORD 4 (int_bytes r.2) pkt.tag] }
  else
    { st with
        queue := enqueue st.queue
          (create_inst_packet pkt.ptype pkt.data_len pkt.data pkt.tag) }

/-- The outcomes of the hardware operations dispatched by the worker, which
depend on hardware and files rather than on the packet. -/
structure WorkerEnv where
  tts_result : Int
  play_file_result : Int
  write_ok : Bool
  card_number : Int
deriving DecidableEq, Repr

/-- One iteration of the worker loop of `audio_process` (audio_firmware.c
lines 84-174) applied to a packet popped from the pending queue: dispatch on
the first payload byte (100 d speak-direct, 115 s speak-and-cache, 112 p
play-file, 98 b beep, 105 i interrupt, 113 q query card number, anything
else is unrecognized and yields -1), then write back exactly one AUDIO
response carrying the `int` result and the request tag.  Returns the new
HAL state, the new TTS flag and the list of packets written. -/
def audio_process_step (pkt : InstPacket) (env : WorkerEnv)
    (hal : HalAudio.HalState) (tts : Bool) :
    HalAudio.HalState × Bool × List InstPacket :=
  let b0 := pkt.data.getD 0 0
  let resp := fun (r : Int) =>
    create_inst_packet PACKET_AUDIO_ORD 4 (int_bytes r) pkt.tag
  if b0 = 100 then
    (HalAudio.hal_audio_clear_interrupt hal, tts, [resp env.tts_result])
  else if b0 = 115 then
    (HalAudio.hal_audio_clear_interrupt hal, tts, [resp env.tts_result])
  else if b0 = 112 then
    (HalAudio.hal_audio_clear_interrupt hal, tts, [resp env.play_file_result])
  else if b0 = 98 then
    let hal1 := HalAudio.hal_audio_clear_interrupt hal
    let bt : HalAudio.BeepType :=
      if pkt.data.getD 1 0 = 107 then .keypress
      else if pkt.data.getD 1 0 = 104 then .hold
      else if pkt.data.getD 1 0 = 101 then .error
      else .keypress
    let r := HalAudio.hal_audio_play_beep bt env.write_ok hal1
    (r.1, tts, [resp r.2])
  else if b0 = 105 then
    let hal1 := HalAudio.hal_audio_interrupt hal
    let r := hal_tts_interrupt hal1 tts
    (r.1, r.2, [resp 0])
  else if b0 = 113 then
    (hal, tts, [resp (HalAudio.hal_audio_get_card_number hal env.card_number)])
  else
    (hal, tts, [resp (-1)])

/-! ### Firmware-side frame reader (audio_io_thread lines 206-234) -/

/-- The stack buffer of `audio_io_thread` holds 256 bytes. -/
def AUDIO_IO_BUF_SIZE : Nat := 256

structure AudioIoFrame where
  ptype : Nat
  size : Nat
  tag : Nat
  buffer_bytes_written : Nat
deriving DecidableEq, Repr

/-- The packet-read path of `audio_io_thread` (audio_firmware.c lines
206-234): read a 4-byte type, a 2-byte size and a 2-byte tag, then execute
`read(i_pipe, buffer, size)` into the 256-byte stack buffer with no bound
check on `size`.  That read stores up to `size` bytes — as many as the
stream provides; `buffer_bytes_written` records how many bytes land in the
buffer.  `none` is the `bytes_read <= 0` break-out of the thread loop. -/
def audio_io_read_frame (stream : List Nat) : Option AudioIoFrame :=
  if 4 ≤ stream.length then
    let ptype := Comm.bytesToNatLE (stream.take 4)
    let s1 := stream.drop 4
    if 2 ≤ s1.length then
      let size := Comm.bytesToNatLE (s1.take 2)
      let s2 := s1.drop 2
      if 2 ≤ s2.length then
        let tag := Comm.bytesToNatLE (s2.take 2)
        let s3 := s2.drop 2
        let written := min size s3.length
        if 0 < written then some ⟨ptype, size, tag, written⟩
        else none
      else none
    else none
  else none

/-- A concrete oversized inbound frame: type AUDIO (1), length 300
(little-endian bytes 44, 1), tag 0, and 300 payload bytes available. -/
def oversized_stream : List Nat :=
  [1, 0, 0, 0] ++ [44, 1] ++ [0, 0] ++ List.replicate 300 7

/-- A concrete firmware state with one pending request in the queue. -/
def audio_fw_state_demo : AudioFwState :=
  ⟨[⟨PACKET_AUDIO_ORD, 2, 3, [112, 0]⟩], HalAudio.hal_state_demo, false, []⟩

/-- A concrete worker environment: hardware operations succeed, card 2. -/
def worker_env_demo : WorkerEnv := ⟨0, 0, true, 2⟩

end AudioFw

namespace KeypadFw

/-! ### Keypad firmware worker (keypad_firmware.c lines 94-124) -/

/-- One iteration of the worker loop of `keypad_process`: pop a packet; if
its first payload byte is 114 (ASCII r) read the keypad through the HAL
(`key_event` is `some k` when the returned `KeypadEvent` is valid, `none`
otherwise, in which case `read_value` is 45, ASCII dash); for any other
payload `read_value` keeps its initializer `(char)-1`, byte 255.  Exactly
one 1-byte KEYPAD response carrying the request tag is written back. -/
def keypad_process_step (pkt : AudioFw.InstPacket) (key_event : Option Nat) :
    List AudioFw.InstPacket :=
  let read_value : Nat :=
    if pkt.data.getD 0 0 = 114 then
      match key_event with
      | some k => k
      | none => 45
    else 255
  [AudioFw.create_inst_packet PACKET_KEYPAD 1 [read_value] pkt.tag]

end KeypadFw

namespace KeypadSw

/-! ### Software-side key-event classifier (Software2/src/keypad.c)

`keypad_thread_func` polls `comm_read_keypad` every `poll_interval_ms` and
classifies the byte stream into tap/hold events.  One loop iteration is
`keypad_poll_step now key s`: `now` is the CLOCK_MONOTONIC millisecond clock
at the iteration, `key` the polled byte (45, ASCII dash, means no key).
Events fired through the callback are returned in order. -/

def DEFAULT_HOLD_THRESHOLD_MS : Nat := 500
def DEFAULT_POLL_INTERVAL_MS : Nat := 50

/-- `RELEASE_THRESHOLD` (keypad.c line 109): 6 polls of 50 ms = 300 ms. -/
def RELEASE_THRESHOLD : Nat := 6

structure KeypadState where
  last_key : Nat
  key_press_time : Nat
  hold_event_fired : Bool
  no_key_count : Nat
deriving DecidableEq, Repr

/-- `KeyPressEvent` of keypad.h restricted to the fields the classifier
sets (`shiftAmount` is always 0). -/
structure KeyPressEvent where
  key : Nat
  isHold : Bool
deriving DecidableEq, Repr

/-- Module state at thread start: `last_key` is the dash byte 45. -/
def keypad_initial_state : KeypadState := ⟨45, 0, false, 0⟩

/-- One iteration of the polling loop (keypad.c lines 114-205).  The C
`key_pressed` test is `key != '-' && key != 0xFF && key != 0x00`, a byte
being neither dash, 255 nor 0. -/
def keypad_poll_step (now : Nat) (key : Nat) (s : KeypadState) :
    KeypadState × List KeyPressEvent :=
  if key ≠ 45 ∧ key ≠ 255 ∧ key ≠ 0 then
    if s.last_key = 45 then
      (⟨key, now, false, 0⟩, [])
    else if s.last_key = key then
      if s.hold_event_fired = false ∧
          DEFAULT_HOLD_THRESHOLD_MS ≤ now - s.key_press_time then
        ({ s with hold_event_fired := true, no_key_count := 0 },
         [⟨key, true⟩])
      else
        ({ s with no_key_count := 0 }, [])
    else
      let evs :=
        if s.hold_event_fired = false then
          [(⟨s.last_key, false⟩ : KeyPressEvent)]
        else []
      (⟨key, now, false, 0⟩, evs)
  else
    if s.last_key ≠ 45 then
      let n := s.no_key_count + 1
      let hold_now : Prop :=
        s.hold_event_fired = false ∧
          DEFAULT_HOLD_THRESHOLD_MS ≤ now - s.key_press_time
      let fired1 := if hold_now then true else s.hold_event_fired
      let evs1 :=
        if hold_now then [(⟨s.last_key, true⟩ : KeyPressEvent)] else []
      if RELEASE_THRESHOLD ≤ n then
        let hold_time := now - s.key_press_time
        let evs2 :=
          if fired1 = false then
            if DEFAULT_HOLD_THRESHOLD_MS ≤ hold_time then
              [(⟨s.last_key, true⟩ : KeyPressEvent)]
            else [(⟨s.last_key, false⟩ : KeyPressEvent)]
          else []
        (⟨45, s.key_press_time, fired1, 0⟩, evs1 ++ evs2)
      else
        ({ s with no_key_count := n, hold_event_fired := fired1 }, evs1)
    else (s, [])

/-- Run the polling loop over a list of `(now, key)` samples. -/
def keypad_run : List (Nat × Nat) → KeypadState →
    KeypadState × List KeyPressEvent
  | [], s => (s, [])
  | (now, key) :: rest, s =>
    let r := keypad_poll_step now key s
    let r2 := keypad_run rest r.1
    (r2.1, r.2 ++ r2.2)

/-- Key `k` observed for 3 consecutive 50 ms samples, then no key for 6
samples. -/
def tap_trace (k : Nat) : List (Nat × Nat) :=
  [(0, k), (50, k), (100, k),
   (150, 45), (200, 45), (250, 45), (300, 45), (350, 45), (400, 45)]

/-- Key `k` observed for 12 consecutive 50 ms samples (600 ms), then no key
for 6 samples. -/
def hold_trace (k : Nat) : List (Nat × Nat) :=
  [(0, k), (50, k), (100, k), (150, k), (200, k), (250, k), (300, k),
   (350, k), (400, k), (450, k), (500, k), (550, k),
   (600, 45), (650, 45), (700, 45), (750, 45), (800, 45), (850, 45)]

/-- Key `k` observed, then immediately a different key `k2`. -/
def rollover_trace (k k2 : Nat) : List (Nat × Nat) :=
  [(0, k), (50, k2)]

end KeypadSw

namespace HalKeypad

/-! ### Phone-layout 0/00 disambiguation (hal_keypad_usb.c)

The `KEYPAD_PHONE_LAYOUT` branch of `hal_keypad_read` (lines 223-334 with
the `kp0_defer` state of lines 44-66): the 00 key sends two `KEY_KP0`
presses within about 24 ms, so the first `KEY_KP0` press is deferred; a
second `KEY_KP0` press inside the 30 ms window resolves to the double
symbol (ASCII 48, the zero digit), the window elapsing or a different key
press resolves to the single symbol (ASCII 42, the star). -/

def EV_KEY : Nat := 1
def KEY_KP0 : Nat := 82
def KP0_DISAMBIG_WINDOW_US : Nat := 30000

/-- `struct input_event` restricted to the fields the driver reads. -/
structure InputEvent where
  etype : Nat
  code : Nat
  value : Nat
deriving DecidableEq, Repr

structure Kp0DeferState where
  pending : Bool
  wall_time : Nat
  raw_code : Nat
deriving DecidableEq, Repr

structure HalKeypadState where
  kp0_defer : Kp0DeferState
  stashed : Option InputEvent
  held_key : Nat
  held_code : Int
deriving DecidableEq, Repr

/-- `KeypadEvent` of hal_keypad.h. -/
structure KeypadEvent where
  key : Nat
  raw_code : Int
  valid : Bool
deriving DecidableEq, Repr

def hal_keypad_initial : HalKeypadState := ⟨⟨false, 0, 0⟩, none, 45, -1⟩

/-- The phone-layout keymap table (hal_keypad_usb.c lines 95-113), raw
Linux keycode to HAMPOD symbol byte; `KEY_KP0` is deliberately absent. -/
def keymap_phone : List (Nat × Nat) :=
  [(79, 55), (80, 56), (81, 57),
   (75, 52), (76, 53), (77, 54),
   (71, 49), (72, 50), (73, 51),
   (14, 65), (74, 66), (78, 67), (96, 68),
   (83, 35)]

/-- `map_keycode_to_symbol` (lines 182-189); 45 (dash) for unmapped. -/
def map_keycode_to_symbol (c : Nat) : Nat :=
  match keymap_phone.find? (fun e => e.1 == c) with
  | some e => e.2
  | none => 45

inductive DrainResult
  | foundKp0 (rest : List InputEvent)
  | stash (ev : InputEvent) (rest : List InputEvent)
  | exhausted
deriving DecidableEq, Repr

/-- The drain loop inside the pending branch of `hal_keypad_read` (lines
236-264): skip non-key events, releases and repeats; stop at a second
`KEY_KP0` press (the 00 key) or at a different key press (stashed). -/
def kp0_drain_loop : List InputEvent → DrainResult
  | [] => .exhausted
  | ev :: rest =>
    if ev.etype ≠ EV_KEY then kp0_drain_loop rest
    else if ev.code = KEY_KP0 ∧ ev.value = 1 then .foundKp0 rest
    else if ev.value = 1 then .stash ev rest
    else kp0_drain_loop rest

/-- Processing of one input event by the non-pending part of
`hal_keypad_read` (lines 301-366), phone-layout branch: a `KEY_KP0` press
only arms the deferral; other presses map and report; releases clear the
hold state when they match; repeats re-report the held key. -/
def process_input_event (now : Nat) (ev : InputEvent) (st : HalKeypadState)
    (buf : List InputEvent) :
    KeypadEvent × HalKeypadState × List InputEvent :=
  let inv : KeypadEvent := ⟨45, 0, false⟩
  if ev.etype ≠ EV_KEY then (inv, st, buf)
  else if ev.value = 1 then
    if ev.code = KEY_KP0 then
      (inv, { st with kp0_defer := ⟨true, now, ev.code⟩ }, buf)
    else
      let sym := map_keycode_to_symbol ev.code
      (⟨sym, (ev.code : Int), sym != 45⟩,
       { st with held_key := sym, held_code := (ev.code : Int) }, buf)
  else if ev.value = 0 then
    if (ev.code : Int) = st.held_code then
      (inv, { st with held_key := 45, held_code := -1 }, buf)
    else (inv, st, buf)
  else if ev.value = 2 then
    if st.held_key ≠ 45 then
      (⟨st.held_key, st.held_code, true⟩, st, buf)
    else (inv, st, buf)
  else (inv, st, buf)

/-- `hal_keypad_read` (lines 213-371), `KEYPAD_PHONE_LAYOUT` branch.  `now`
is the `gettimeofday` microsecond clock at the call, `buf` the input events
currently readable on the device fd (a read on an empty buffer returns
nothing).  Returns the `KeypadEvent`, the new driver state, and the unread
remainder of the buffer. -/
def hal_keypad_read (now : Nat) (buf : List InputEvent)
    (st : HalKeypadState) :
    KeypadEvent × HalKeypadState × List InputEvent :=
  let inv : KeypadEvent := ⟨45, 0, false⟩
  if st.kp0_defer.pending then
    match st.stashed with
    | some _ =>
      (⟨42, (st.kp0_defer.raw_code : Int), true⟩,
       { st with kp0_defer := { st.kp0_defer with pending := false },
                 held_key := 42,
                 held_code := (st.kp0_defer.raw_code : Int) },
       buf)
    | none =>
      match kp0_drain_loop buf with
      | .foundKp0 rest =>
        (⟨48, (KEY_KP0 : Int), true⟩,
         { st with kp0_defer := { st.kp0_defer with pending := false },
                   held_key := 48, held_code := (KEY_KP0 : Int) },
         rest)
      | .stash ev rest =>
        (⟨42, (st.kp0_defer.raw_code : Int), true⟩,
         { st with kp0_defer := { st.kp0_defer with pending := false },
                   stashed := some ev,
                   held_key := 42,
                   held_code := (st.kp0_defer.raw_code : Int) },
         rest)
      | .exhausted =>
        if KP0_DISAMBIG_WINDOW_US ≤ now - st.kp0_defer.wall_time then
          (⟨42, (st.kp0_defer.raw_code : Int), true⟩,
           { st with kp0_defer := { st.kp0_defer with pending := false },
                     held_key := 42,
                     held_code := (st.kp0_defer.raw_code : Int) },
           [])
        else (inv, st, [])
  else
    match st.stashed with
    | some ev => process_input_event now ev { st with stashed := none } buf
    | none =>
      match buf with
      | [] => (inv, st, [])
      | ev :: rest => process_input_event now ev st rest

end HalKeypad

end Hampod

/-! ## Proof development

All theorems follow: auxiliary lemmas first, then one theorem per claim
(with a witness where the theorem has hypotheses). -/

namespace Hampod

namespace Comm

theorem qgetD_set_eq (l : List CommPacket) (i : Nat) (a d : CommPacket)
    (h : i < l.length) : (l.set i a).getD i d = a := by
  simp [List.getD_eq_getElem?_getD, List.getElem?_set, h]

theorem qgetD_set_ne (l : List CommPacket) (i j : Nat) (a d : CommPacket)
    (h : i ≠ j) : (l.set i a).getD j d = l.getD j d := by
  simp [List.getD_eq_getElem?_getD, List.getElem?_set_ne h]

theorem queue_inv_init : QueueInv response_queue_init := by
  refine ⟨?_, ?_, ?_, ?_, ?_⟩ <;> simp [response_queue_init, COMM_RESPONSE_QUEUE_SIZE]

theorem queue_contents_init : queue_contents response_queue_init = [] := by
  simp [queue_contents, response_queue_init]

theorem queue_push_inv (q : ResponseQueue) (p : CommPacket) (h : QueueInv q) :
    QueueInv (response_queue_push q p).1 := by
  obtain ⟨hlen, hhead, htail, hcount, heq⟩ := h
  simp only [COMM_RESPONSE_QUEUE_SIZE] at hlen hhead htail hcount heq
  by_cases hfull : 16 ≤ q.count
  · refine ⟨?_, ?_, ?_, ?_, ?_⟩ <;>
      simp only [response_queue_push, COMM_RESPONSE_QUEUE_SIZE, if_pos hfull,
        List.length_set] <;> omega
  · refine ⟨?_, ?_, ?_, ?_, ?_⟩ <;>
      simp only [response_queue_push, COMM_RESPONSE_QUEUE_SIZE, if_neg hfull,
        List.length_set] <;> omega

theorem map_range_snoc (f g : Nat → CommPacket) (p : CommPacket) (n : Nat)
    (hmid : ∀ i, i < n → g i = f i) (hlast : g n = p) :
    (List.range (n + 1)).map g = (List.range n).map f ++ [p] := by
  rw [List.range_succ, List.map_append, List.map_singleton, hlast]
  congr 1
  exact List.map_congr_left fun i hi => hmid i (List.mem_range.mp hi)

theorem map_range_shift (f g : Nat → CommPacket) (p : CommPacket) (n : Nat)
    (hmid : ∀ i, i < n → g i = f (i + 1)) (hlast : g n = p) :
    (List.range (n + 1)).map g = ((List.range (n + 1)).map f).drop 1 ++ [p] := by
  conv_rhs => rw [List.range_succ_eq_map]
  rw [List.range_succ]
  simp only [List.map_append, List.map_singleton, List.map_cons,
    List.drop_succ_cons, List.drop_zero, List.map_map]
  rw [hlast]
  congr 1
  refine List.map_congr_left fun i hi => ?_
  have hg := hmid i (List.mem_range.mp hi)
  simpa [Function.comp] using hg

theorem queue_push_contents (q : ResponseQueue) (p : CommPacket)
    (h : QueueInv q) :
    queue_contents (response_queue_push q p).1 = absPush (queue_contents q) p := by
  obtain ⟨pk, hd, tl, ct⟩ := q
  obtain ⟨hlen, hhead, htail, hcount, heq⟩ := h
  simp only [COMM_RESPONSE_QUEUE_SIZE] at hlen hhead htail hcount heq
  by_cases hfull : 16 ≤ ct
  · have hc : ct = 16 := by omega
    subst hc
    have ht : tl = hd := by omega
    rw [ht]
    have hR : absPush (queue_contents ⟨pk, hd, hd, 16⟩) p =
        (queue_contents ⟨pk, hd, hd, 16⟩).drop 1 ++ [p] := by
      unfold absPush
      rw [if_pos (by simp [queue_contents, COMM_RESPONSE_QUEUE_SIZE])]
    rw [hR]
    have hL : queue_contents (response_queue_push ⟨pk, hd, hd, 16⟩ p).1 =
        (List.range (15 + 1)).map
          (fun i => (pk.set hd p).getD (((hd + 1) % 16 + i) % 16) default) := by
      simp only [response_queue_push, COMM_RESPONSE_QUEUE_SIZE]
      rw [if_pos (by omega)]
      simp [queue_contents, COMM_RESPONSE_QUEUE_SIZE]
    have hF : queue_contents ⟨pk, hd, hd, 16⟩ =
        (List.range (15 + 1)).map
          (fun i => pk.getD ((hd + i) % 16) default) := by
      simp [queue_contents, COMM_RESPONSE_QUEUE_SIZE]
    rw [hL, hF]
    refine map_range_shift _ _ p 15 (fun i hi => ?_) ?_
    · have hne : ((hd + 1) % 16 + i) % 16 ≠ hd := by omega
      rw [qgetD_set_ne _ _ _ _ _ (fun hcontra => hne hcontra.symm)]
      have harith : ((hd + 1) % 16 + i) % 16 = (hd + (i + 1)) % 16 := by omega
      rw [harith]
    · have hidx : ((hd + 1) % 16 + 15) % 16 = hd := by omega
      rw [hidx, qgetD_set_eq _ _ _ _ (by omega)]
  · have hlt : ct < 16 := by omega
    have hR : absPush (queue_contents ⟨pk, hd, tl, ct⟩) p =
        (queue_contents ⟨pk, hd, tl, ct⟩) ++ [p] := by
      unfold absPush
      rw [if_neg (by simp [queue_contents, COMM_RESPONSE_QUEUE_SIZE]; omega)]
    rw [hR]
    have hL : queue_contents (response_queue_push ⟨pk, hd, tl, ct⟩ p).1 =
        (List.range (ct + 1)).map
          (fun i => (pk.set tl p).getD ((hd + i) % 16) default) := by
      simp only [response_queue_push, COMM_RESPONSE_QUEUE_SIZE]
      rw [if_neg (by omega)]
      simp [queue_contents, COMM_RESPONSE_QUEUE_SIZE]
    have hF : queue_contents ⟨pk, hd, tl, ct⟩ =
        (List.range ct).map (fun i => pk.getD ((hd + i) % 16) default) := by
      simp [queue_contents, COMM_RESPONSE_QUEUE_SIZE]
    rw [hL, hF]
    refine map_range_snoc _ _ p ct (fun i hi => ?_) ?_
    · have hne : (hd + i) % 16 ≠ tl := by omega
      rw [qgetD_set_ne _ _ _ _ _ (fun hcontra => hne hcontra.symm)]
    · have hidx : (hd + ct) % 16 = tl := heq.symm
      rw [hidx, qgetD_set_eq _ _ _ _ (by omega)]

theorem push_all_contents (xs : List CommPacket) (q : ResponseQueue)
    (h : QueueInv q) :
    queue_contents (push_all q xs) = xs.foldl absPush (queue_contents q) := by
  induction xs generalizing q with
  | nil => rfl
  | cons x xs ih =>
    show queue_contents (push_all (response_queue_push q x).1 xs) = _
    rw [ih _ (queue_push_inv q x h), queue_push_contents q x h]
    rfl

theorem foldl_absPush (xs : List CommPacket) (l : List CommPacket)
    (h : l.length ≤ 16) :
    xs.foldl absPush l = (l ++ xs).drop (l.length + xs.length - 16) := by
  induction xs generalizing l with
  | nil =>
    simp only [List.foldl_nil, List.append_nil, List.length_nil]
    rw [show l.length + 0 - 16 = 0 by omega, List.drop_zero]
  | cons x xs ih =>
    simp only [List.foldl_cons]
    by_cases hl : l.length = 16
    · obtain ⟨a, l2, rfl⟩ : ∃ a l2, l = a :: l2 := by
        cases l with
        | nil => simp at hl
        | cons a l2 => exact ⟨a, l2, rfl⟩
      have h15 : l2.length = 15 := by
        simp only [List.length_cons] at hl
        omega
      have habs : absPush (a :: l2) x = l2 ++ [x] := by
        simp [absPush, COMM_RESPONSE_QUEUE_SIZE, hl]
      rw [habs, ih (l2 ++ [x]) (by simp [h15])]
      have e1 : (l2 ++ [x]).length + xs.length - 16 = xs.length := by
        simp [h15]
      have e2 : (a :: l2).length + (x :: xs).length - 16 = xs.length + 1 := by
        simp [h15]
      rw [e1, e2, List.cons_append, List.drop_succ_cons, List.append_assoc,
        List.singleton_append]
    · have habs : absPush l x = l ++ [x] := by
        simp [absPush, COMM_RESPONSE_QUEUE_SIZE, hl]
      rw [habs, ih (l ++ [x]) (by simp; omega)]
      have e1 : (l ++ [x]).length + xs.length = l.length + (x :: xs).length := by
        simp
        omega
      rw [List.append_assoc, List.singleton_append, e1]

theorem queue_pop_inv (q : ResponseQueue) (h : QueueInv q) (hc : q.count ≠ 0) :
    QueueInv (response_queue_pop q).2 := by
  obtain ⟨hlen, hhead, htail, hcount, heq⟩ := h
  simp only [COMM_RESPONSE_QUEUE_SIZE] at hlen hhead htail hcount heq
  refine ⟨?_, ?_, ?_, ?_, ?_⟩ <;>
    simp only [response_queue_pop, COMM_RESPONSE_QUEUE_SIZE] <;> omega

theorem queue_after_wait_inv (q : ResponseQueue) (r : Bool) (h : QueueInv q) :
    QueueInv (pop_timeout_after_wait q r).queue := by
  unfold pop_timeout_after_wait
  by_cases h1 : r = false ∧ q.count = 0
  · rw [if_pos h1]; exact h
  · rw [if_neg h1]
    by_cases h2 : q.count = 0
    · rw [if_pos h2]; exact h
    · rw [if_neg h2]; exact queue_pop_inv q h h2

theorem queue_pop_timeout_inv (q : ResponseQueue) (r : Bool) (ev : WaitEvent)
    (h : QueueInv q) : QueueInv (response_queue_pop_timeout q r ev).queue := by
  unfold response_queue_pop_timeout
  by_cases h1 : q.count = 0 ∧ r = true
  · rw [if_pos h1]
    cases ev with
    | timedOut => exact h
    | arrival p => exact queue_after_wait_inv _ _ (queue_push_inv q p h)
    | routerStopped => exact queue_after_wait_inv _ _ h
  · rw [if_neg h1]; exact queue_after_wait_inv _ _ h

theorem queue_ops_inv (ops : List QueueOp) (q : ResponseQueue)
    (h : QueueInv q) : QueueInv (ops.foldl apply_queue_op q) := by
  induction ops generalizing q with
  | nil => exact h
  | cons op ops ih =>
    cases op with
    | push p => exact ih _ (queue_push_inv q p h)
    | popT r ev => exact ih _ (queue_pop_timeout_inv q r ev h)

end Comm

end Hampod

open Hampod Hampod.Comm

/-- C3: pushing onto a full `ResponseQueue` drops the oldest entry and
appends the new one: after any sequence of pushes (no pops) starting from
the empty queue, the queue holds exactly the most recent
`COMM_RESPONSE_QUEUE_SIZE` packets in arrival order; and
`response_queue_push` never blocks — it is a total function that always
returns `HAMPOD_OK`. -/
theorem C3_response_queue_drops_oldest :
    (∀ xs : List CommPacket,
        queue_contents (push_all response_queue_init xs) =
          xs.drop (xs.length - COMM_RESPONSE_QUEUE_SIZE)) ∧
    (∀ (q : ResponseQueue) (p : CommPacket),
        (response_queue_push q p).2 = HAMPOD_OK) := by
  constructor
  · intro xs
    rw [push_all_contents xs response_queue_init queue_inv_init,
      queue_contents_init,
      foldl_absPush xs [] (by simp)]
    simp [COMM_RESPONSE_QUEUE_SIZE]
  · intro q p
    rfl

/-- C10: after any sequence of push and pop operations starting from the
initial queue, `count ≤ 16`, `head < 16`, `tail < 16` and
`tail = (head + count) % 16`; and a push onto a full queue (count = 16)
leaves the count at exactly 16, never more. -/
theorem C10_response_queue_invariant :
    (∀ ops : List QueueOp,
        (ops.foldl apply_queue_op response_queue_init).count ≤
            COMM_RESPONSE_QUEUE_SIZE ∧
        (ops.foldl apply_queue_op response_queue_init).head <
            COMM_RESPONSE_QUEUE_SIZE ∧
        (ops.foldl apply_queue_op response_queue_init).tail <
            COMM_RESPONSE_QUEUE_SIZE ∧
        (ops.foldl apply_queue_op response_queue_init).tail =
          ((ops.foldl apply_queue_op response_queue_init).head +
              (ops.foldl apply_queue_op response_queue_init).count) %
            COMM_RESPONSE_QUEUE_SIZE) ∧
    (∀ (q : ResponseQueue) (p : CommPacket), QueueInv q →
        q.count = COMM_RESPONSE_QUEUE_SIZE →
        ((response_queue_push q p).1).count = COMM_RESPONSE_QUEUE_SIZE) := by
  constructor
  · intro ops
    obtain ⟨_, h2, h3, h4, h5⟩ :=
      queue_ops_inv ops response_queue_init queue_inv_init
    exact ⟨h4, h2, h3, h5⟩
  · intro q p hq hfull
    simp only [response_queue_push, COMM_RESPONSE_QUEUE_SIZE] at hfull ⊢
    rw [if_pos (by omega)]
    simp
    omega

/-- Witness for C10 at concrete inputs: a concrete op sequence, and a push
onto the concrete full queue obtained by 16 pushes. -/
theorem C10_response_queue_invariant_witness :
    ((([QueueOp.push default, QueueOp.popT true WaitEvent.timedOut]).foldl
          apply_queue_op response_queue_init).count ≤
        COMM_RESPONSE_QUEUE_SIZE) ∧
    ((response_queue_push
        (push_all response_queue_init (List.replicate 16 default))
        default).1).count = COMM_RESPONSE_QUEUE_SIZE :=
  ⟨(C10_response_queue_invariant.1
      [QueueOp.push default, QueueOp.popT true WaitEvent.timedOut]).1,
   C10_response_queue_invariant.2
     (push_all response_queue_init (List.replicate 16 default)) default
     (by decide) (by decide)⟩

/-- C8: the consumer wait `response_queue_pop_timeout` has exactly three
outcomes: a packet (`HAMPOD_OK`) when one is or becomes available, a
distinguishable `HAMPOD_TIMEOUT` when the queue stays empty for the whole
timeout while the router runs, and `HAMPOD_ERROR` — rather than blocking
forever — when the router has stopped and the queue is empty. -/
theorem C8_pop_timeout_outcomes (q : ResponseQueue) (run : Bool)
    (ev : WaitEvent) (hq : QueueInv q) :
    (0 < q.count →
        (response_queue_pop_timeout q run ev).status = HAMPOD_OK ∧
        (response_queue_pop_timeout q run ev).packet =
          some (q.packets.getD q.head default)) ∧
    (q.count = 0 → run = false →
        (response_queue_pop_timeout q run ev).status = HAMPOD_ERROR ∧
        (response_queue_pop_timeout q run ev).packet = none) ∧
    (q.count = 0 → run = true →
        ((ev = .timedOut →
            (response_queue_pop_timeout q run ev).status = HAMPOD_TIMEOUT) ∧
         (∀ p, ev = .arrival p →
            (response_queue_pop_timeout q run ev).status = HAMPOD_OK ∧
            (response_queue_pop_timeout q run ev).packet = some p) ∧
         (ev = .routerStopped →
            (response_queue_pop_timeout q run ev).status = HAMPOD_ERROR))) ∧
    (HAMPOD_OK ≠ HAMPOD_TIMEOUT ∧ HAMPOD_OK ≠ HAMPOD_ERROR ∧
      HAMPOD_TIMEOUT ≠ HAMPOD_ERROR) := by
  obtain ⟨hlen, hhead, htail, hcount, heq⟩ := hq
  simp only [COMM_RESPONSE_QUEUE_SIZE] at hlen hhead htail hcount heq
  refine ⟨?_, ?_, ?_, by decide⟩
  · intro hpos
    have hne : ¬(q.count = 0 ∧ run = true) := by
      intro hcontra; omega
    simp only [response_queue_pop_timeout, if_neg hne,
      pop_timeout_after_wait]
    rw [if_neg (by intro hcontra; omega), if_neg (by omega)]
    exact ⟨rfl, rfl⟩
  · intro hc hrun
    subst hrun
    have hne : ¬(q.count = 0 ∧ False = true) := by simp
    simp only [response_queue_pop_timeout, Bool.false_eq_true, and_false,
      if_false, pop_timeout_after_wait]
    rw [if_pos ⟨trivial, hc⟩]
    exact ⟨rfl, rfl⟩
  · intro hc hrun
    subst hrun
    refine ⟨?_, ?_, ?_⟩
    · intro hev; subst hev
      simp only [response_queue_pop_timeout]
      rw [if_pos ⟨hc, trivial⟩]
    · intro p hev; subst hev
      simp only [response_queue_pop_timeout]
      rw [if_pos ⟨hc, trivial⟩]
      have hpushhead : ((response_queue_push q p).1).head = q.head := by
        simp only [response_queue_push, COMM_RESPONSE_QUEUE_SIZE]
        rw [if_neg (by omega)]
      have hpushcount : ((response_queue_push q p).1).count = 1 := by
        simp only [response_queue_push, COMM_RESPONSE_QUEUE_SIZE]
        rw [if_neg (by omega)]
        simp [hc]
      have hpushpk : ((response_queue_push q p).1).packets =
          q.packets.set q.head p := by
        simp only [response_queue_push, COMM_RESPONSE_QUEUE_SIZE]
        rw [if_neg (by omega)]
        have htl : q.tail = q.head := by omega
        rw [htl]
      simp only [pop_timeout_after_wait]
      rw [if_neg (by simp [hpushcount]), if_neg (by simp [hpushcount])]
      refine ⟨rfl, ?_⟩
      simp only [response_queue_pop, hpushhead, hpushpk]
      rw [qgetD_set_eq _ _ _ _ (by omega)]
    · intro hev; subst hev
      simp only [response_queue_pop_timeout]
      rw [if_pos ⟨hc, trivial⟩]
      simp [pop_timeout_after_wait, hc]

/-- Witness for C8: with the initial (empty, well-formed) queue and a
stopped router, the wait returns `HAMPOD_ERROR`. -/
theorem C8_pop_timeout_outcomes_witness :
    (response_queue_pop_timeout response_queue_init false
        WaitEvent.timedOut).status = HAMPOD_ERROR :=
  ((C8_pop_timeout_outcomes response_queue_init false WaitEvent.timedOut
      (by decide)).2.1 rfl rfl).1


open Hampod.HalAudio Hampod.AudioFw Hampod.KeypadFw Hampod.KeypadSw Hampod.HalKeypad

/-! ### Audio HAL lemmas (for C1, C5, C6) -/

theorem hal_interrupt_flag (s : HalState) :
    (hal_audio_interrupt s).audio_interrupted = true := by
  unfold hal_audio_interrupt
  dsimp only
  split <;> rfl

theorem hal_interrupt_pcm (s : HalState) :
    (hal_audio_interrupt s).pcm_open = s.pcm_open := by
  unfold hal_audio_interrupt
  dsimp only
  split <;> rfl

theorem hal_interrupt_drop (s : HalState) (h : s.pcm_open = true) :
    (hal_audio_interrupt s).dropCalls = s.dropCalls + 1 := by
  unfold hal_audio_interrupt
  dsimp only
  rw [if_pos h]

theorem hal_interrupt_drop_mono (s : HalState) :
    s.dropCalls ≤ (hal_audio_interrupt s).dropCalls := by
  unfold hal_audio_interrupt
  dsimp only
  split <;> simp

theorem hal_clear_interrupted (s : HalState) :
    (hal_audio_clear_interrupt s).audio_interrupted = false := by
  unfold hal_audio_clear_interrupt
  dsimp only

theorem hal_clear_of_not_interrupted (s : HalState)
    (h : s.audio_interrupted = false) :
    hal_audio_clear_interrupt s = { s with audio_interrupted := false } := by
  unfold hal_audio_clear_interrupt
  dsimp only
  rw [h]
  simp

theorem hal_beep_interrupted_eq (t : BeepType) (w : Bool) (s : HalState) :
    ((hal_audio_play_beep t w s).1).audio_interrupted = s.audio_interrupted := by
  unfold hal_audio_play_beep
  dsimp only
  split
  · rfl
  · split
    · rfl
    · split
      · rfl
      · rfl

/-- C6: `hal_audio_clear_interrupt` re-primes (`snd_pcm_prepare`) the sink
if and only if the interrupted flag was set beforehand (given the PCM handle
is open); apart from clearing the flag and that conditional re-prime it
changes nothing about the sink state; and between two consecutive beeps with
no intervening interrupt, the clear-interrupt preceding the second beep
makes zero sink abort (`snd_pcm_drop`) and zero re-prime
(`snd_pcm_prepare`) calls. -/
theorem C6_clear_interrupt_reprime_iff (s : HalState) (t : BeepType)
    (w : Bool) (hopen : s.pcm_open = true) :
    (((hal_audio_clear_interrupt s).prepareCalls = s.prepareCalls + 1) ↔
        s.audio_interrupted = true) ∧
    ((hal_audio_clear_interrupt s).audio_interrupted = false ∧
      (hal_audio_clear_interrupt s).audio_playing = s.audio_playing ∧
      (hal_audio_clear_interrupt s).pcm_open = s.pcm_open ∧
      (hal_audio_clear_interrupt s).inited = s.inited ∧
      (hal_audio_clear_interrupt s).dropCalls = s.dropCalls ∧
      (hal_audio_clear_interrupt s).drainCalls = s.drainCalls ∧
      (hal_audio_clear_interrupt s).beep_keypress_loaded =
        s.beep_keypress_loaded ∧
      (hal_audio_clear_interrupt s).beep_hold_loaded = s.beep_hold_loaded ∧
      (hal_audio_clear_interrupt s).beep_error_loaded = s.beep_error_loaded) ∧
    ((hal_audio_clear_interrupt
          (hal_audio_play_beep t w (hal_audio_clear_interrupt s)).1).prepareCalls =
        ((hal_audio_play_beep t w (hal_audio_clear_interrupt s)).1).prepareCalls ∧
      (hal_audio_clear_interrupt
          (hal_audio_play_beep t w (hal_audio_clear_interrupt s)).1).dropCalls =
        ((hal_audio_play_beep t w (hal_audio_clear_interrupt s)).1).dropCalls) := by
  refine ⟨?_, ?_, ?_⟩
  · by_cases hi : s.audio_interrupted = true
    · simp [hal_audio_clear_interrupt, hi, hopen]
    · rw [Bool.not_eq_true] at hi
      simp [hal_audio_clear_interrupt, hi]
  · by_cases hi : s.audio_interrupted = true
    · simp [hal_audio_clear_interrupt, hi, hopen]
    · rw [Bool.not_eq_true] at hi
      simp [hal_audio_clear_interrupt, hi]
  · have h1 : ((hal_audio_play_beep t w (hal_audio_clear_interrupt s)).1).audio_interrupted = false := by
      rw [hal_beep_interrupted_eq, hal_clear_interrupted]
    rw [hal_clear_of_not_interrupted _ h1]
    exact ⟨rfl, rfl⟩

/-- Witness for C6: at the concrete healthy HAL state (not interrupted),
clearing the interrupt does not bump the prepare counter, and the
clear-interrupt between two beeps makes no drop and no prepare call. -/
theorem C6_clear_interrupt_reprime_iff_witness :
    (((hal_audio_clear_interrupt hal_state_demo).prepareCalls =
        hal_state_demo.prepareCalls + 1) ↔
      hal_state_demo.audio_interrupted = true) ∧
    (hal_audio_clear_interrupt
        (hal_audio_play_beep BeepType.keypress true
          (hal_audio_clear_interrupt hal_state_demo)).1).dropCalls =
      ((hal_audio_play_beep BeepType.keypress true
          (hal_audio_clear_interrupt hal_state_demo)).1).dropCalls :=
  ⟨(C6_clear_interrupt_reprime_iff hal_state_demo BeepType.keypress true
      (by decide)).1,
   (C6_clear_interrupt_reprime_iff hal_state_demo BeepType.keypress true
      (by decide)).2.2.2⟩

/-- C5 counterexample: the claim says an interrupted play returns an
"interrupted" status distinguishable from normal completion.  At the
concrete healthy HAL state, a 3-chunk play whose interrupted flag is seen
from iteration 1 on writes only chunk 0 — it really is cut short — yet
returns 0, exactly the return status of the uninterrupted run that writes
all three chunks: the statuses are not distinguishable. -/
theorem C5_play_interrupted_status_counterexample :
    (hal_audio_play_file (WavInput.valid 3) (fun i => decide (1 ≤ i))
        (fun _ => false) true hal_state_demo).ret =
      (hal_audio_play_file (WavInput.valid 3) (fun _ => false)
        (fun _ => false) true hal_state_demo).ret ∧
    (hal_audio_play_file (WavInput.valid 3) (fun i => decide (1 ≤ i))
        (fun _ => false) true hal_state_demo).writes = [0] ∧
    (hal_audio_play_file (WavInput.valid 3) (fun _ => false)
        (fun _ => false) true hal_state_demo).writes = [0, 1, 2] := by
  refine ⟨rfl, rfl, rfl⟩

theorem stream_chunks_not_interrupted (intr werr : Nat → Bool) :
    ∀ (n i : Nat), ∀ j ∈ stream_chunks intr werr i n, intr j = false := by
  intro n
  induction n with
  | zero =>
    intro i j hj
    simp [stream_chunks] at hj
  | succ n ih =>
    intro i j hj
    unfold stream_chunks at hj
    by_cases h1 : intr i = true
    · rw [if_pos h1] at hj
      simp at hj
    · rw [Bool.not_eq_true] at h1
      rw [if_neg (by simp [h1])] at hj
      by_cases h2 : werr i = true
      · rw [if_pos h2] at hj
        simp at hj
      · rw [if_neg h2] at hj
        rcases List.mem_cons.mp hj with hji | hjr
        · rw [hji]
          exact h1
        · exact ih (i + 1) j hjr

/-- C5 as amended: in the chunked playback loop, once the interrupted flag
is set no further chunk is written to the sink (every written chunk index
was checked while the flag was still clear) and play stops; the playing
flag is false on every exit path; but the return status of the streaming
path is 0 whether playback was interrupted or ran to completion — the
"interrupted" outcome is not distinguishable from normal completion by the
return value. -/
theorem C5_play_loop_interrupt_stops_and_playing_false (inp : WavInput)
    (intr werr : Nat → Bool) (sys_ok : Bool) (s : HalState)
    (hplay : s.audio_playing = false) :
    (∀ j ∈ (hal_audio_play_file inp intr werr sys_ok s).writes,
        intr j = false) ∧
    (hal_audio_play_file inp intr werr sys_ok s).state.audio_playing =
      false ∧
    (s.inited = true → s.pcm_open = true → ∀ n, inp = WavInput.valid n →
        (hal_audio_play_file inp intr werr sys_ok s).ret = 0) := by
  refine ⟨?_, ?_, ?_⟩
  · intro j hj
    unfold hal_audio_play_file at hj
    by_cases hin : s.inited = true
    · rw [if_neg (by simp [hin])] at hj
      cases inp with
      | noFile => simp at hj
      | badFormat => simp at hj
      | valid n =>
        dsimp only at hj
        by_cases hp : s.pcm_open = true
        · rw [if_neg (by simp [hp])] at hj
          exact stream_chunks_not_interrupted intr werr n 0 j hj
        · rw [Bool.not_eq_true] at hp
          rw [if_pos (by simp [hp])] at hj
          simp at hj
    · rw [Bool.not_eq_true] at hin
      rw [if_pos (by simp [hin])] at hj
      simp at hj
  · unfold hal_audio_play_file
    by_cases hin : s.inited = true
    · rw [if_neg (by simp [hin])]
      cases inp with
      | noFile => exact hplay
      | badFormat => rfl
      | valid n =>
        dsimp only
        by_cases hp : s.pcm_open = true
        · rw [if_neg (by simp [hp])]
        · rw [Bool.not_eq_true] at hp
          rw [if_pos (by simp [hp])]
    · rw [Bool.not_eq_true] at hin
      rw [if_pos (by simp [hin])]
      exact hplay
  · intro hin hp n hinp
    subst hinp
    unfold hal_audio_play_file
    rw [if_neg (by simp [hin])]
    dsimp only
    rw [if_neg (by simp [hp])]

/-- Witness for C5 (amended): at the concrete healthy HAL state with a
2-chunk file and a quiet environment, the playing flag is false on exit and
the streaming return status is 0. -/
theorem C5_play_loop_witness :
    (hal_audio_play_file (WavInput.valid 2) (fun _ => false) (fun _ => false)
        true hal_state_demo).state.audio_playing = false ∧
    (hal_audio_play_file (WavInput.valid 2) (fun _ => false) (fun _ => false)
        true hal_state_demo).ret = 0 :=
  ⟨(C5_play_loop_interrupt_stops_and_playing_false (WavInput.valid 2)
      (fun _ => false) (fun _ => false) true hal_state_demo (by decide)).2.1,
   (C5_play_loop_interrupt_stops_and_playing_false (WavInput.valid 2)
      (fun _ => false) (fun _ => false) true hal_state_demo (by decide)).2.2
     (by decide) (by decide) 2 rfl⟩

set_option maxRecDepth 4000 in
/-- C2 at the failing input: on the concrete inbound frame claiming length
300 with 300 payload bytes available, the Software decoder
`comm_read_packet` rejects it (error, no payload read), but the Firmware
read path of `audio_io_thread` passes the unchecked size straight to
`read`, landing 300 bytes in its 256-byte stack buffer — an out-of-bounds
write of 44 bytes. -/
theorem C2_oversized_rejected_software_overrun_firmware :
    comm_read_packet oversized_stream = none ∧
    audio_io_read_frame oversized_stream =
      some ⟨PACKET_AUDIO_ORD, 300, 0, 300⟩ ∧
    AUDIO_IO_BUF_SIZE < 300 := by
  refine ⟨by decide, by decide, by decide⟩

/-- C1: bypass classification in the I/O role (`audio_io_thread`).  For an
inbound AUDIO packet with a non-empty payload: if the first payload byte is
105 (ASCII i, interrupt), the packet is not enqueued — the pending queue is
flushed empty — the playback-interrupt path runs (the interrupted flags of
the audio HAL and the TTS HAL are set, and the hardware abort fires when the
PCM handle is open), and exactly one acknowledgment packet carrying the
original tag is written directly to the output pipe; if the first byte is 98
(ASCII b, beep), the packet is not enqueued, the pending queue is left
exactly as it was, the interrupted flag ends cleared so the beep can play,
and one acknowledgment with the original tag is written directly. -/
theorem C1_bypass_classification (pkt : AudioFw.InstPacket) (w : Bool)
    (st : AudioFwState) (htype : pkt.ptype = PACKET_AUDIO_ORD)
    (hlen : 0 < pkt.data_len) :
    (pkt.data.getD 0 0 = 105 →
        (audio_io_step pkt w st).queue = [] ∧
        (audio_io_step pkt w st).out = st.out ++
          [AudioFw.create_inst_packet PACKET_AUDIO_ORD 4 (int_bytes 0) pkt.tag] ∧
        (audio_io_step pkt w st).hal.audio_interrupted = true ∧
        (audio_io_step pkt w st).tts_interrupted = true ∧
        (st.hal.pcm_open = true →
          st.hal.dropCalls < (audio_io_step pkt w st).hal.dropCalls)) ∧
    (pkt.data.getD 0 0 = 98 →
        (audio_io_step pkt w st).queue = st.queue ∧
        (∃ r : Int, (audio_io_step pkt w st).out = st.out ++
          [AudioFw.create_inst_packet PACKET_AUDIO_ORD 4 (int_bytes r) pkt.tag]) ∧
        (audio_io_step pkt w st).hal.audio_interrupted = false) := by
  constructor
  · intro h105
    have hstep : audio_io_step pkt w st =
        { st with
            hal := (hal_tts_interrupt (hal_audio_interrupt st.hal)
              st.tts_interrupted).1,
            tts_interrupted := (hal_tts_interrupt
              (hal_audio_interrupt st.hal) st.tts_interrupted).2,
            queue := clear_queue st.queue,
            out := st.out ++
              [AudioFw.create_inst_packet PACKET_AUDIO_ORD 4 (int_bytes 0)
                pkt.tag] } := by
      unfold audio_io_step
      rw [if_neg (by simp [htype]), if_pos ⟨hlen, h105⟩]
    rw [hstep]
    refine ⟨rfl, rfl, ?_, rfl, ?_⟩
    · exact hal_interrupt_flag _
    · intro hopen
      have h1 : st.hal.dropCalls < (hal_audio_interrupt st.hal).dropCalls := by
        rw [hal_interrupt_drop st.hal hopen]
        omega
      have h2 : (hal_audio_interrupt st.hal).dropCalls ≤
          (hal_audio_interrupt (hal_audio_interrupt st.hal)).dropCalls :=
        hal_interrupt_drop_mono _
      exact lt_of_lt_of_le h1 h2
  · intro h98
    have h105 : ¬(0 < pkt.data_len ∧ pkt.data.getD 0 0 = 105) := by
      rintro ⟨-, hx⟩
      rw [h98] at hx
      exact absurd hx (by decide)
    unfold audio_io_step
    rw [if_neg (by simp [htype]), if_neg h105, if_pos ⟨hlen, h98⟩]
    refine ⟨rfl, ⟨(HalAudio.hal_audio_play_beep _ w
      (hal_audio_clear_interrupt st.hal)).2, rfl⟩, ?_⟩
    rw [hal_beep_interrupted_eq, hal_clear_interrupted]

/-- Witness for C1: a concrete interrupt packet flushes the concrete
firmware state with one pending request, and a concrete beep packet leaves
its queue untouched. -/
theorem C1_bypass_classification_witness :
    (audio_io_step ⟨PACKET_AUDIO_ORD, 1, 7, [105]⟩ true audio_fw_state_demo).queue
        = [] ∧
    (audio_io_step ⟨PACKET_AUDIO_ORD, 2, 9, [98, 107]⟩ true
        audio_fw_state_demo).queue = audio_fw_state_demo.queue :=
  ⟨((C1_bypass_classification ⟨PACKET_AUDIO_ORD, 1, 7, [105]⟩ true
      audio_fw_state_demo rfl (by decide)).1 (by decide)).1,
   ((C1_bypass_classification ⟨PACKET_AUDIO_ORD, 2, 9, [98, 107]⟩ true
      audio_fw_state_demo rfl (by decide)).2 (by decide)).1⟩

/-- C7: both workers write exactly one response per popped request.  The
audio worker `audio_process` sends one AUDIO response of 4 payload bytes
carrying the request tag — for every dispatch outcome, including hardware
failures (whatever results the environment returns) and an unrecognized
first payload byte, which is answered with status -1 inside the same packet
kind; the keypad worker `keypad_process` sends one 1-byte KEYPAD response
carrying the request tag, answering an unrecognized payload with the byte
255 (the `(char)-1` initializer). -/
theorem C7_worker_one_response_per_request (pkt : AudioFw.InstPacket)
    (env : WorkerEnv) (hal : HalState) (tts : Bool) (kev : Option Nat) :
    (audio_process_step pkt env hal tts).2.2.length = 1 ∧
    (∀ r ∈ (audio_process_step pkt env hal tts).2.2,
        r.ptype = PACKET_AUDIO_ORD ∧ r.tag = pkt.tag ∧ r.data_len = 4) ∧
    (pkt.data.getD 0 0 ∉ ([100, 115, 112, 98, 105, 113] : List Nat) →
        (audio_process_step pkt env hal tts).2.2 =
          [AudioFw.create_inst_packet PACKET_AUDIO_ORD 4 (int_bytes (-1))
            pkt.tag]) ∧
    (keypad_process_step pkt kev).length = 1 ∧
    (∀ r ∈ keypad_process_step pkt kev,
        r.ptype = PACKET_KEYPAD ∧ r.tag = pkt.tag ∧ r.data_len = 1) ∧
    (pkt.data.getD 0 0 ≠ 114 →
        keypad_process_step pkt kev =
          [AudioFw.create_inst_packet PACKET_KEYPAD 1 [255] pkt.tag]) := by
  refine ⟨?_, ?_, ?_, ?_, ?_, ?_⟩
  · unfold audio_process_step
    dsimp only
    split_ifs <;> rfl
  · intro r hr
    unfold audio_process_step at hr
    dsimp only at hr
    split_ifs at hr <;>
      (simp only [List.mem_singleton] at hr; subst hr;
       exact ⟨rfl, rfl, rfl⟩)
  · intro hnot
    simp only [List.mem_cons, List.not_mem_nil, or_false, not_or] at hnot
    obtain ⟨n1, n2, n3, n4, n5, n6⟩ := hnot
    unfold audio_process_step
    dsimp only
    rw [if_neg n1, if_neg n2, if_neg n3, if_neg n4, if_neg n5, if_neg n6]
  · rfl
  · intro r hr
    unfold keypad_process_step at hr
    simp only [List.mem_singleton] at hr
    subst hr
    exact ⟨rfl, rfl, rfl⟩
  · intro hne
    unfold keypad_process_step
    rw [if_neg hne]

/-- Witness for C7: a concrete request with unrecognized payload byte 120
still gets exactly one response from each worker, carrying its tag and an
error value. -/
theorem C7_worker_one_response_witness :
    (audio_process_step ⟨PACKET_AUDIO_ORD, 1, 5, [120]⟩ worker_env_demo
        hal_state_demo false).2.2 =
      [AudioFw.create_inst_packet PACKET_AUDIO_ORD 4 (int_bytes (-1)) 5] ∧
    keypad_process_step ⟨PACKET_KEYPAD, 1, 6, [120]⟩ (some 53) =
      [AudioFw.create_inst_packet PACKET_KEYPAD 1 [255] 6] :=
  ⟨(C7_worker_one_response_per_request ⟨PACKET_AUDIO_ORD, 1, 5, [120]⟩
      worker_env_demo hal_state_demo false (some 53)).2.2.1 (by decide),
   (C7_worker_one_response_per_request ⟨PACKET_KEYPAD, 1, 6, [120]⟩
      worker_env_demo hal_state_demo false (some 53)).2.2.2.2.2 (by decide)⟩

/-! ### Key-event classifier lemmas (for C4) -/

theorem kp_step_down (now k : Nat) (s : KeypadState)
    (h1 : k ≠ 45) (h2 : k ≠ 255) (h3 : k ≠ 0) (hlast : s.last_key = 45) :
    keypad_poll_step now k s = (⟨k, now, false, 0⟩, []) := by
  unfold keypad_poll_step
  rw [if_pos ⟨h1, h2, h3⟩, if_pos hlast]

theorem kp_step_same_quiet (now k : Nat) (s : KeypadState)
    (h1 : k ≠ 45) (h2 : k ≠ 255) (h3 : k ≠ 0) (hlast : s.last_key = k)
    (hcond : ¬(s.hold_event_fired = false ∧
      DEFAULT_HOLD_THRESHOLD_MS ≤ now - s.key_press_time)) :
    keypad_poll_step now k s = ({ s with no_key_count := 0 }, []) := by
  unfold keypad_poll_step
  rw [if_pos ⟨h1, h2, h3⟩, if_neg (by rw [hlast]; exact h1), if_pos hlast,
    if_neg hcond]

theorem kp_step_same_hold (now k : Nat) (s : KeypadState)
    (h1 : k ≠ 45) (h2 : k ≠ 255) (h3 : k ≠ 0) (hlast : s.last_key = k)
    (hf : s.hold_event_fired = false)
    (ht : DEFAULT_HOLD_THRESHOLD_MS ≤ now - s.key_press_time) :
    keypad_poll_step now k s =
      ({ s with hold_event_fired := true, no_key_count := 0 },
       [⟨k, true⟩]) := by
  unfold keypad_poll_step
  rw [if_pos ⟨h1, h2, h3⟩, if_neg (by rw [hlast]; exact h1), if_pos hlast,
    if_pos ⟨hf, ht⟩]

theorem kp_step_rollover (now k2 : Nat) (s : KeypadState)
    (g1 : k2 ≠ 45) (g2 : k2 ≠ 255) (g3 : k2 ≠ 0)
    (hlast45 : s.last_key ≠ 45) (hlastne : s.last_key ≠ k2)
    (hf : s.hold_event_fired = false) :
    keypad_poll_step now k2 s =
      (⟨k2, now, false, 0⟩, [⟨s.last_key, false⟩]) := by
  unfold keypad_poll_step
  rw [if_pos ⟨g1, g2, g3⟩, if_neg hlast45, if_neg hlastne]
  rw [if_pos hf]

theorem kp_step_gap (now : Nat) (s : KeypadState) (hlast : s.last_key ≠ 45)
    (hcond : ¬(s.hold_event_fired = false ∧
      DEFAULT_HOLD_THRESHOLD_MS ≤ now - s.key_press_time))
    (hn : s.no_key_count + 1 < RELEASE_THRESHOLD) :
    keypad_poll_step now 45 s =
      ({ s with no_key_count := s.no_key_count + 1 }, []) := by
  unfold keypad_poll_step
  rw [if_neg (by rintro ⟨hx, -, -⟩; exact hx rfl), if_pos hlast]
  simp only [if_neg hcond]
  rw [if_neg (Nat.not_le.mpr hn)]

theorem kp_step_release_tap (now : Nat) (s : KeypadState)
    (hlast : s.last_key ≠ 45) (hf : s.hold_event_fired = false)
    (ht : now - s.key_press_time < DEFAULT_HOLD_THRESHOLD_MS)
    (hn : RELEASE_THRESHOLD ≤ s.no_key_count + 1) :
    keypad_poll_step now 45 s =
      (⟨45, s.key_press_time, false, 0⟩, [⟨s.last_key, false⟩]) := by
  unfold keypad_poll_step
  rw [if_neg (by rintro ⟨hx, -, -⟩; exact hx rfl), if_pos hlast]
  have hcond : ¬(s.hold_event_fired = false ∧
      DEFAULT_HOLD_THRESHOLD_MS ≤ now - s.key_press_time) := by
    rintro ⟨-, hx⟩
    omega
  simp only [if_neg hcond]
  rw [if_pos hn]
  rw [if_pos hf, if_neg (by omega), hf]
  simp

theorem kp_step_release_after_hold (now : Nat) (s : KeypadState)
    (hlast : s.last_key ≠ 45) (hf : s.hold_event_fired = true)
    (hn : RELEASE_THRESHOLD ≤ s.no_key_count + 1) :
    keypad_poll_step now 45 s = (⟨45, s.key_press_time, true, 0⟩, []) := by
  unfold keypad_poll_step
  rw [if_neg (by rintro ⟨hx, -, -⟩; exact hx rfl), if_pos hlast]
  have hcond : ¬(s.hold_event_fired = false ∧
      DEFAULT_HOLD_THRESHOLD_MS ≤ now - s.key_press_time) := by
    rintro ⟨hx, -⟩
    rw [hf] at hx
    exact absurd hx (by decide)
  simp only [if_neg hcond]
  rw [if_pos hn]
  rw [if_neg (by rw [hf]; decide), hf]
  simp

/-- C4: with poll interval 50 ms, hold threshold 500 ms and release
threshold 6 samples: (i) a valid key observed for 3 consecutive samples then
no key for 6 samples fires exactly one non-hold (tap) event for that key;
(ii) a key observed for 12 consecutive samples then no key for 6 samples
fires exactly one hold event and no tap; (iii) a key `k` observed and then
immediately a different key `k2` fires the tap for `k` and starts a fresh
interaction (`Down(k2, now, holdFired=false)`) for `k2`. -/
theorem C4_tap_hold_classification (k k2 : Nat)
    (h1 : k ≠ 45) (h2 : k ≠ 255) (h3 : k ≠ 0)
    (g1 : k2 ≠ 45) (g2 : k2 ≠ 255) (g3 : k2 ≠ 0) (hkk : k ≠ k2) :
    (keypad_run (tap_trace k) keypad_initial_state).2 =
      [⟨k, false⟩] ∧
    (keypad_run (hold_trace k) keypad_initial_state).2 =
      [⟨k, true⟩] ∧
    keypad_run (rollover_trace k k2) keypad_initial_state =
      (⟨k2, 50, false, 0⟩, [⟨k, false⟩]) := by
  have e0 : keypad_poll_step 0 k keypad_initial_state =
      (⟨k, 0, false, 0⟩, []) :=
    kp_step_down 0 k _ h1 h2 h3 rfl
  have epq : ∀ t : Nat, t < 500 →
      keypad_poll_step t k ⟨k, 0, false, 0⟩ = (⟨k, 0, false, 0⟩, []) := by
    intro t ht
    exact kp_step_same_quiet t k ⟨k, 0, false, 0⟩ h1 h2 h3 rfl
      (by
        rintro ⟨-, hx⟩
        simp only [DEFAULT_HOLD_THRESHOLD_MS] at hx
        omega)
  have eg : ∀ t c : Nat, t < 500 → c + 1 < 6 →
      keypad_poll_step t 45 ⟨k, 0, false, c⟩ =
        (⟨k, 0, false, c + 1⟩, []) := by
    intro t c ht hc
    exact kp_step_gap t ⟨k, 0, false, c⟩ h1
      (by
        rintro ⟨-, hx⟩
        simp only [DEFAULT_HOLD_THRESHOLD_MS] at hx
        omega)
      (by simp only [RELEASE_THRESHOLD]; omega)
  have e50 := epq 50 (by omega)
  have e100 := epq 100 (by omega)
  have eg150 := eg 150 0 (by omega) (by omega)
  have eg200 := eg 200 1 (by omega) (by omega)
  have eg250 := eg 250 2 (by omega) (by omega)
  have eg300 := eg 300 3 (by omega) (by omega)
  have eg350 := eg 350 4 (by omega) (by omega)
  have er400 : keypad_poll_step 400 45 ⟨k, 0, false, 5⟩ =
      (⟨45, 0, false, 0⟩, [⟨k, false⟩]) :=
    kp_step_release_tap 400 ⟨k, 0, false, 5⟩ h1 rfl
      (by simp only [DEFAULT_HOLD_THRESHOLD_MS]; omega)
      (by simp only [RELEASE_THRESHOLD]; omega)
  refine ⟨?_, ?_, ?_⟩
  · simp [tap_trace, keypad_run, e0, e50, e100, eg150, eg200, eg250,
      eg300, eg350, er400]
  · have e150 := epq 150 (by omega)
    have e200 := epq 200 (by omega)
    have e250 := epq 250 (by omega)
    have e300 := epq 300 (by omega)
    have e350 := epq 350 (by omega)
    have e400 := epq 400 (by omega)
    have e450 := epq 450 (by omega)
    have e500 : keypad_poll_step 500 k ⟨k, 0, false, 0⟩ =
        (⟨k, 0, true, 0⟩, [⟨k, true⟩]) :=
      kp_step_same_hold 500 k ⟨k, 0, false, 0⟩ h1 h2 h3 rfl rfl
        (by simp only [DEFAULT_HOLD_THRESHOLD_MS]; omega)
    have e550 : keypad_poll_step 550 k ⟨k, 0, true, 0⟩ =
        (⟨k, 0, true, 0⟩, []) :=
      kp_step_same_quiet 550 k ⟨k, 0, true, 0⟩ h1 h2 h3 rfl
        (by rintro ⟨hx, -⟩; simp at hx)
    have egh : ∀ t c : Nat, c + 1 < 6 →
        keypad_poll_step t 45 ⟨k, 0, true, c⟩ =
          (⟨k, 0, true, c + 1⟩, []) := by
      intro t c hc
      exact kp_step_gap t ⟨k, 0, true, c⟩ h1
        (by rintro ⟨hx, -⟩; simp at hx)
        (by simp only [RELEASE_THRESHOLD]; omega)
    have eg600 := egh 600 0 (by omega)
    have eg650 := egh 650 1 (by omega)
    have eg700 := egh 700 2 (by omega)
    have eg750 := egh 750 3 (by omega)
    have eg800 := egh 800 4 (by omega)
    have er850 : keypad_poll_step 850 45 ⟨k, 0, true, 5⟩ =
        (⟨45, 0, true, 0⟩, []) :=
      kp_step_release_after_hold 850 ⟨k, 0, true, 5⟩ h1 rfl
        (by simp only [RELEASE_THRESHOLD]; omega)
    simp [hold_trace, keypad_run, e0, e50, e100, e150, e200, e250, e300,
      e350, e400, e450, e500, e550, eg600, eg650, eg700, eg750, eg800,
      er850]
  · have eroll : keypad_poll_step 50 k2 ⟨k, 0, false, 0⟩ =
        (⟨k2, 50, false, 0⟩, [⟨k, false⟩]) :=
      kp_step_rollover 50 k2 ⟨k, 0, false, 0⟩ g1 g2 g3 h1 hkk rfl
    simp [rollover_trace, keypad_run, e0, eroll]

/-- Witness for C4 at the concrete keys of the spec scenarios: byte 53
(the digit five) and byte 54 (the digit six). -/
theorem C4_tap_hold_classification_witness :
    (keypad_run (tap_trace 53) keypad_initial_state).2 =
      [⟨53, false⟩] ∧
    (keypad_run (hold_trace 53) keypad_initial_state).2 =
      [⟨53, true⟩] ∧
    keypad_run (rollover_trace 53 54) keypad_initial_state =
      (⟨54, 50, false, 0⟩, [⟨53, false⟩]) :=
  C4_tap_hold_classification 53 54 (by decide) (by decide) (by decide)
    (by decide) (by decide) (by decide) (by decide)

/-- C9: phone-layout 0/00 disambiguation in `hal_keypad_read`.  A first
`KEY_KP0` press is deferred (no symbol emitted, `pending` armed with the
wall clock).  Double pulse: the 00 key sends press, release, press; if the
next read happens at `t1` inside the 30 ms window with that second pulse
buffered, exactly one valid event is emitted, the double symbol (byte 48,
the zero digit), and the deferral is resolved.  Single pulse: reads inside
the window with no second pulse emit nothing; the first read at `t2` at or
past the window emits exactly one valid event, the single symbol (byte 42,
the star), and resolves the deferral.  One logical symbol per physical
press in either case. -/
theorem C9_kp0_double_pulse_disambiguation (t0 t1 t2 : Nat)
    (h01 : t1 - t0 < KP0_DISAMBIG_WINDOW_US)
    (h02 : KP0_DISAMBIG_WINDOW_US ≤ t2 - t0) :
    ((hal_keypad_read t0 [⟨1, 82, 1⟩] hal_keypad_initial).1.valid = false ∧
     (hal_keypad_read t0 [⟨1, 82, 1⟩]
         hal_keypad_initial).2.1.kp0_defer.pending = true ∧
     (hal_keypad_read t1 [⟨1, 82, 0⟩, ⟨1, 82, 1⟩]
         (hal_keypad_read t0 [⟨1, 82, 1⟩] hal_keypad_initial).2.1).1 =
       ⟨48, 82, true⟩ ∧
     (hal_keypad_read t1 [⟨1, 82, 0⟩, ⟨1, 82, 1⟩]
         (hal_keypad_read t0 [⟨1, 82, 1⟩]
           hal_keypad_initial).2.1).2.1.kp0_defer.pending = false ∧
     (hal_keypad_read t1 [⟨1, 82, 0⟩, ⟨1, 82, 1⟩]
         (hal_keypad_read t0 [⟨1, 82, 1⟩] hal_keypad_initial).2.1).2.2 =
       []) ∧
    ((hal_keypad_read t1 []
         (hal_keypad_read t0 [⟨1, 82, 1⟩] hal_keypad_initial).2.1).1.valid =
       false ∧
     (hal_keypad_read t2 []
         (hal_keypad_read t1 []
           (hal_keypad_read t0 [⟨1, 82, 1⟩]
             hal_keypad_initial).2.1).2.1).1 = ⟨42, 82, true⟩ ∧
     (hal_keypad_read t2 []
         (hal_keypad_read t1 []
           (hal_keypad_read t0 [⟨1, 82, 1⟩]
             hal_keypad_initial).2.1).2.1).2.1.kp0_defer.pending = false) := by
  have hw1 : ¬(KP0_DISAMBIG_WINDOW_US ≤ t1 - t0) := Nat.not_le.mpr h01
  have hr0 : hal_keypad_read t0 [⟨1, 82, 1⟩] hal_keypad_initial =
      (⟨45, 0, false⟩, ⟨⟨true, t0, 82⟩, none, 45, -1⟩, []) := by
    simp [hal_keypad_read, hal_keypad_initial, process_input_event,
      EV_KEY, KEY_KP0]
  have hr1d : hal_keypad_read t1 [⟨1, 82, 0⟩, ⟨1, 82, 1⟩]
      (⟨⟨true, t0, 82⟩, none, 45, -1⟩ : HalKeypadState) =
      (⟨48, 82, true⟩, ⟨⟨false, t0, 82⟩, none, 48, 82⟩, []) := by
    simp [hal_keypad_read, kp0_drain_loop, EV_KEY, KEY_KP0]
  have hr1s : hal_keypad_read t1 []
      (⟨⟨true, t0, 82⟩, none, 45, -1⟩ : HalKeypadState) =
      (⟨45, 0, false⟩, ⟨⟨true, t0, 82⟩, none, 45, -1⟩, []) := by
    simp [hal_keypad_read, kp0_drain_loop, hw1]
  have hr2s : hal_keypad_read t2 []
      (⟨⟨true, t0, 82⟩, none, 45, -1⟩ : HalKeypadState) =
      (⟨42, 82, true⟩, ⟨⟨false, t0, 82⟩, none, 42, 82⟩, []) := by
    simp [hal_keypad_read, kp0_drain_loop, h02]
  rw [hr0]
  refine ⟨⟨rfl, rfl, ?_, ?_, ?_⟩, ?_, ?_, ?_⟩
  · rw [hr1d]
  · rw [hr1d]
  · rw [hr1d]
  · rw [hr1s]
  · rw [hr1s, hr2s]
  · rw [hr1s, hr2s]

/-- Witness for C9 at concrete clocks: the first pulse at 0 us, the second
read at 20000 us (inside the 30 ms window), the timeout read at 30000 us. -/
theorem C9_kp0_double_pulse_witness :
    (hal_keypad_read 20000 [⟨1, 82, 0⟩, ⟨1, 82, 1⟩]
        (hal_keypad_read 0 [⟨1, 82, 1⟩] hal_keypad_initial).2.1).1 =
      ⟨48, 82, true⟩ ∧
    (hal_keypad_read 30000 []
        (hal_keypad_read 20000 []
          (hal_keypad_read 0 [⟨1, 82, 1⟩]
            hal_keypad_initial).2.1).2.1).1 = ⟨42, 82, true⟩ :=
  ⟨(C9_kp0_double_pulse_disambiguation 0 20000 30000 (by decide)
      (by decide)).1.2.2.1,
   (C9_kp0_double_pulse_disambiguation 0 20000 30000 (by decide)
      (by decide)).2.2.1⟩
